import Mathlib

/-!
Verification of the Ubuntu image fetcher (`python_fetcher.py`), a shallow
embedding of the `UbuntuImageFetcher` class and the CPython library
functions it calls (`urllib.parse.urlparse`, `os.path.basename`,
`os.path.splitext`, `os.path.join`, `int()`, `hashlib.md5`).  Bytes are
modelled as `Nat` values below 256, byte strings as `List Nat`, machine
words as `Nat` reduced modulo `2 ^ 32` where the algorithm wraps.
-/

set_option maxRecDepth 4000

/-! ## Small character / list utilities -/

/-- Model of CPython's `_WHATWG_C0_CONTROL_OR_SPACE`: code points `0x00`..`0x20`. -/
def isC0OrSpace (c : Char) : Bool := c.toNat ≤ 32

/-- Model of `str.lstrip` with the C0-control-or-space set (CPython 3.11+ `urlsplit`). -/
def lstripC0 (l : List Char) : List Char := l.dropWhile isC0OrSpace

/-- Model of removing `_UNSAFE_URL_BYTES_TO_REMOVE = ["\t", "\r", "\n"]` (CPython `urlsplit`). -/
def removeUnsafeBytes (l : List Char) : List Char :=
  l.filter (fun c => c ≠ '\t' ∧ c ≠ '\r' ∧ c ≠ '\n')

/-- CPython `scheme_chars`: ASCII letters, digits, and `+`, `-`, `.`. -/
def isSchemeChar (c : Char) : Bool := c.isAlpha || c.isDigit || c = '+' || c = '-' || c = '.'

/-- Index of the first occurrence of `c` in `l`, if any (model of `str.find`). -/
def findIdx (c : Char) (l : List Char) : Option Nat := l.findIdx? (· = c)

/-- Index of the last occurrence of `c` in `l`, if any (model of `str.rfind`). -/
def rfindIdx (c : Char) (l : List Char) : Option Nat :=
  match findIdx c l.reverse with
  | none => none
  | some i => some (l.length - 1 - i)

/-- Model of `str.lower()` (ASCII; header values and MIME types in play are ASCII). -/
def strLower (s : String) : String := String.mk (s.data.map Char.toLower)

/-- Model of `str.startswith(p)`. -/
def strStartsWith (s p : String) : Bool := s.data.take p.data.length = p.data

/-- Model of `str.endswith(p)`. -/
def strEndsWith (s p : String) : Bool := s.data.reverse.take p.data.length = p.data.reverse

/-! ## Model of `urllib.parse.urlparse` (CPython) -/

/-- The fields of a `ParseResult` the fetcher reads: `scheme` and `path`
(`netloc` is kept because `urlsplit` computes it on the way). -/
structure UrlParts where
  scheme : List Char
  netloc : List Char
  path : List Char
deriving DecidableEq, Repr

/-- `_splitnetloc`: the netloc runs from position 2 up to the first `/`, `?` or `#`. -/
def splitnetloc (l : List Char) : List Char × List Char :=
  let netloc := l.takeWhile (fun c => c ≠ '/' ∧ c ≠ '?' ∧ c ≠ '#')
  (netloc, l.drop netloc.length)

/-- Split off everything from the first occurrence of `c` (model of `str.split(c, 1)`,
keeping only the part before `c`; identity when `c` is absent). -/
def dropFrom (c : Char) (l : List Char) : List Char :=
  match findIdx c l with
  | none => l
  | some i => l.take i

/-- Schemes in CPython's `uses_params` list (those for which `urlparse` splits `;params`). -/
def usesParams : List (List Char) :=
  ["".data, "ftp".data, "hdl".data, "prospero".data, "http".data, "imap".data,
   "https".data, "shttp".data, "rtsp".data, "rtspu".data, "sip".data, "sips".data,
   "mms".data, "sftp".data, "tel".data]

/-- CPython `_splitparams`: drop `;params`, looking for `;` only after the last `/`. -/
def splitparams (l : List Char) : List Char :=
  if l.contains '/' then
    match rfindIdx '/' l with
    | none => l
    | some s =>
      match findIdx ';' (l.drop s) with
      | none => l
      | some j => l.take (s + j)
  else dropFrom ';' l

/-- Scheme recognition in `urlsplit`: a `:` at position `i > 0`, a first character
that is an ASCII letter, and only `scheme_chars` before the colon; the scheme is
lowercased and the colon consumed, otherwise the scheme is empty and the input kept. -/
def parseScheme (l : List Char) : List Char × List Char :=
  match findIdx ':' l with
  | none => ([], l)
  | some i =>
    if 0 < i ∧ (l.take 1).all Char.isAlpha ∧ (l.take i).all isSchemeChar then
      ((l.take i).map Char.toLower, l.drop (i + 1))
    else ([], l)

/-- Model of CPython `urllib.parse.urlparse` restricted to the fields the fetcher
uses.  Faithful to `urlsplit` of CPython 3.11: leading C0-control/space stripping,
tab/CR/LF removal, scheme recognition (first char an ASCII letter, all chars in
`scheme_chars`, scheme lowercased), netloc extraction with the mismatched-IPv6-bracket
`ValueError`, fragment then query splitting, and `urlparse`'s `;params` splitting for
schemes in `uses_params`.  (CPython 3.11+ additionally validates the *contents* of a
bracketed host; that stricter check raises in strictly more cases and is not modelled.)
The `.error` constructor models `ValueError`. -/
def pyUrlparse (url : String) : Except String UrlParts :=
  let l := removeUnsafeBytes (lstripC0 url.data)
  let scheme := (parseScheme l).1
  let rest := (parseScheme l).2
  if rest.take 2 = ['/', '/'] then
    let (netloc, rest2) := splitnetloc (rest.drop 2)
    if (netloc.contains '[' && !(netloc.contains ']')) ||
       (netloc.contains ']' && !(netloc.contains '[')) then
      .error "Invalid IPv6 URL"
    else
      let p := dropFrom '?' (dropFrom '#' rest2)
      let p := if usesParams.contains scheme ∧ p.contains ';' then splitparams p else p
      .ok ⟨scheme, netloc, p⟩
  else
    let p := dropFrom '?' (dropFrom '#' rest)
    let p := if usesParams.contains scheme ∧ p.contains ';' then splitparams p else p
    .ok ⟨scheme, [], p⟩

/-! ## `is_safe_url` -/

/-- `is_safe_url` (lines 28–31): `parsed = urlparse(url); return parsed.scheme in
('http', 'https')`.  The `ValueError` that `urlparse` can raise propagates, hence
the `Except`. -/
def is_safe_url (url : String) : Except String Bool :=
  match pyUrlparse url with
  | .error e => .error e
  | .ok parts =>
    .ok (parts.scheme = "http".data ∨ parts.scheme = "https".data : Bool)

/-! ## Models of `os.path.basename`, `os.path.splitext`, `os.path.join` (posixpath) -/

/-- `posixpath.basename`: everything after the last `/` (`p[p.rfind('/') + 1:]`). -/
def os_path_basename (p : String) : String :=
  match rfindIdx '/' p.data with
  | none => p
  | some i => String.mk (p.data.drop (i + 1))

/-- `posixpath.splitext`: split at the last `.`, provided it lies strictly after the
last `/` and the characters between the start of the base name and that dot are not
all dots (so `.hidden` has no extension). -/
def os_path_splitext (p : String) : String × String :=
  match rfindIdx '.' p.data with
  | none => (p, "")
  | some d =>
    let s := match rfindIdx '/' p.data with | none => 0 | some i => i + 1
    if s ≤ d ∧ ((p.data.drop s).take (d - s)).any (· ≠ '.') then
      (String.mk (p.data.take d), String.mk (p.data.drop d))
    else (p, "")

/-- `posixpath.join` for two components. -/
def os_path_join (a b : String) : String :=
  if strStartsWith b "/" then b
  else if a = "" ∨ strEndsWith a "/" then a ++ b
  else a ++ "/" ++ b

/-! ## `get_extension_from_content_type` and `get_filename_from_url` -/

/-- `get_extension_from_content_type` (lines 51–63): the `content_map` dictionary
lookup with default `'.jpg'`. -/
def get_extension_from_content_type (content_type : String) : String :=
  if content_type = "image/jpeg" then ".jpg"
  else if content_type = "image/jpg" then ".jpg"
  else if content_type = "image/png" then ".png"
  else if content_type = "image/gif" then ".gif"
  else if content_type = "image/webp" then ".webp"
  else if content_type = "image/svg+xml" then ".svg"
  else if content_type = "image/bmp" then ".bmp"
  else if content_type = "image/tiff" then ".tiff"
  else ".jpg"

/-- `get_filename_from_url` (lines 33–49): basename of the parsed URL path; if empty,
`"ubuntu_image" + ext`; if without extension, append the mapped extension; otherwise
keep it.  Calls `urlparse`, whose `ValueError` propagates, hence the `Except`. -/
def get_filename_from_url (url : String) (content_type : String) : Except String String :=
  match pyUrlparse url with
  | .error e => .error e
  | .ok parts =>
    let filename := os_path_basename (String.mk parts.path)
    .ok (if filename = "" then
           "ubuntu_image" ++ get_extension_from_content_type content_type
         else if (os_path_splitext filename).2 = "" then
           filename ++ get_extension_from_content_type content_type
         else filename)

/-! ## Model of Python `int(str)` -/

/-- ASCII whitespace accepted by `int()` (Python also strips some Unicode spaces;
the headers in play are ASCII). -/
def isPyWs (c : Char) : Bool := c = ' ' ∨ c = '\t' ∨ c = '\n' ∨ c = '\r' ∨ c.toNat = 11 ∨ c.toNat = 12

/-- Strip leading and trailing whitespace. -/
def stripWs (l : List Char) : List Char :=
  ((l.dropWhile isPyWs).reverse.dropWhile isPyWs).reverse

/-- Numeric value of a decimal digit character. -/
def digitVal (c : Char) : Nat := c.toNat - 48

/-- Digit-run parser after the first digit: digits, with single underscores allowed
only between digits (Python 3.6+ literal rule used by `int()`). -/
def pyDigitsGo : Nat → List Char → Option Nat
  | acc, [] => some acc
  | acc, '_' :: c :: rest => if c.isDigit then pyDigitsGo (acc * 10 + digitVal c) rest else none
  | _, ['_'] => none
  | acc, c :: rest => if c.isDigit then pyDigitsGo (acc * 10 + digitVal c) rest else none

/-- A nonempty digit run starting with a digit. -/
def pyDigits : List Char → Option Nat
  | [] => none
  | c :: rest => if c.isDigit then pyDigitsGo (digitVal c) rest else none

/-- Model of Python `int(s)` for `str` input: strip whitespace, optional sign,
decimal digits (underscore separators allowed between digits).  `none` models the
`ValueError` raised on anything else (including the empty string). -/
def pythonInt (s : String) : Option Int :=
  match stripWs s.data with
  | '+' :: rest => (pyDigits rest).map (fun n => (n : Int))
  | '-' :: rest => (pyDigits rest).map (fun n => -(n : Int))
  | rest => (pyDigits rest).map (fun n => (n : Int))

/-! ## Responses and `validate_response` -/

/-- The part of a `requests.Response` the fetcher reads: status code, headers, and
the streamed body as the chunk sequence produced by `iter_content` (chunk sizes are
left arbitrary; `requests` only treats 8192 as a hint). -/
structure PyResponse where
  status_code : Nat
  headers : List (String × String)
  chunks : List (List Nat)
deriving DecidableEq, Repr

/-- Case-insensitive header lookup (`requests` stores headers in a
`CaseInsensitiveDict`); `none` models a missing key. -/
def headerGet (headers : List (String × String)) (k : String) : Option String :=
  (headers.find? (fun p => strLower p.1 = strLower k)).map (·.2)

/-- `self.max_file_size = 10 * 1024 * 1024` (line 10). -/
def max_file_size : Nat := 10 * 1024 * 1024

/-- `validate_response` (lines 73–89).  `.error` models the `ValueError` that
`int(content_length)` raises on a non-empty, non-integer `Content-Length` (an empty
string is falsy and skips the check). -/
def validate_response (r : PyResponse) : Except String Bool :=
  if r.status_code ≠ 200 then .ok false
  else
    let content_type := strLower ((headerGet r.headers "Content-Type").getD "")
    if ¬ strStartsWith content_type "image/" then .ok false
    else
      match headerGet r.headers "Content-Length" with
      | none => .ok true
      | some cl =>
        if cl = "" then .ok true
        else
          match pythonInt cl with
          | none => .error "ValueError"
          | some n => if n > (max_file_size : Int) then .ok false else .ok true

/-! ## Model of `hashlib.md5` (RFC 1321) -/

/-- `2 ^ 32`, the modulus for MD5's 32-bit arithmetic. -/
def M32 : Nat := 4294967296

/-- 32-bit complement of a word below `2 ^ 32`. -/
def cpl32 (x : Nat) : Nat := (M32 - 1) - (x % M32)

/-- 32-bit left rotation of a word below `2 ^ 32`. -/
def rotl32 (x s : Nat) : Nat := (x * 2 ^ s + x / 2 ^ (32 - s)) % M32

/-- The MD5 sine-derived constant table `K`. -/
def md5K : List Nat :=
  [0xd76aa478, 0xe8c7b756, 0x242070db, 0xc1bdceee,
   0xf57c0faf, 0x4787c62a, 0xa8304613, 0xfd469501,
   0x698098d8, 0x8b44f7af, 0xffff5bb1, 0x895cd7be,
   0x6b901122, 0xfd987193, 0xa679438e, 0x49b40821,
   0xf61e2562, 0xc040b340, 0x265e5a51, 0xe9b6c7aa,
   0xd62f105d, 0x02441453, 0xd8a1e681, 0xe7d3fbc8,
   0x21e1cde6, 0xc33707d6, 0xf4d50d87, 0x455a14ed,
   0xa9e3e905, 0xfcefa3f8, 0x676f02d9, 0x8d2a4c8a,
   0xfffa3942, 0x8771f681, 0x6d9d6122, 0xfde5380c,
   0xa4beea44, 0x4bdecfa9, 0xf6bb4b60, 0xbebfbc70,
   0x289b7ec6, 0xeaa127fa, 0xd4ef3085, 0x04881d05,
   0xd9d4d039, 0xe6db99e5, 0x1fa27cf8, 0xc4ac5665,
   0xf4292244, 0x432aff97, 0xab9423a7, 0xfc93a039,
   0x655b59c3, 0x8f0ccc92, 0xffeff47d, 0x85845dd1,
   0x6fa87e4f, 0xfe2ce6e0, 0xa3014314, 0x4e0811a1,
   0xf7537e82, 0xbd3af235, 0x2ad7d2bb, 0xeb86d391]

/-- The MD5 per-step rotation amounts. -/
def md5S : List Nat :=
  [7, 12, 17, 22, 7, 12, 17, 22, 7, 12, 17, 22, 7, 12, 17, 22,
   5, 9, 14, 20, 5, 9, 14, 20, 5, 9, 14, 20, 5, 9, 14, 20,
   4, 11, 16, 23, 4, 11, 16, 23, 4, 11, 16, 23, 4, 11, 16, 23,
   6, 10, 15, 21, 6, 10, 15, 21, 6, 10, 15, 21, 6, 10, 15, 21]

/-- The round function of step `i`. -/
def md5F (i b c d : Nat) : Nat :=
  if i < 16 then Nat.lor (Nat.land b c) (Nat.land (cpl32 b) d)
  else if i < 32 then Nat.lor (Nat.land d b) (Nat.land (cpl32 d) c)
  else if i < 48 then Nat.xor b (Nat.xor c d)
  else Nat.xor c (Nat.lor b (cpl32 d))

/-- The message-word index used in step `i`. -/
def md5g (i : Nat) : Nat :=
  if i < 16 then i % 16
  else if i < 32 then (5 * i + 1) % 16
  else if i < 48 then (3 * i + 5) % 16
  else (7 * i) % 16

/-- One MD5 step on the state `(a, b, c, d)` with message words `M`. -/
def md5Step (M : List Nat) (st : Nat × Nat × Nat × Nat) (i : Nat) : Nat × Nat × Nat × Nat :=
  let f := (md5F i st.2.1 st.2.2.1 st.2.2.2 + st.1 + md5K.getD i 0 + M.getD (md5g i) 0) % M32
  (st.2.2.2, (st.2.1 + rotl32 f (md5S.getD i 0)) % M32, st.2.1, st.2.2.1)

/-- One 512-bit block: 64 steps, then add the incoming state back in. -/
def md5Block (st : Nat × Nat × Nat × Nat) (M : List Nat) : Nat × Nat × Nat × Nat :=
  let r := (List.range 64).foldl (md5Step M) st
  ((st.1 + r.1) % M32, (st.2.1 + r.2.1) % M32, (st.2.2.1 + r.2.2.1) % M32, (st.2.2.2 + r.2.2.2) % M32)

/-- The `k` least-significant bytes of `n`, little-endian. -/
def toLEBytes : Nat → Nat → List Nat
  | 0, _ => []
  | k + 1, n => n % 256 :: toLEBytes k (n / 256)

/-- MD5 padding: `0x80`, zeros to 56 mod 64, then the 64-bit little-endian bit length. -/
def md5Pad (msg : List Nat) : List Nat :=
  let l := msg.length
  msg ++ [128] ++ List.replicate ((120 - (l + 1) % 64) % 64) 0 ++ toLEBytes 8 ((8 * l) % 2 ^ 64)

/-- The sixteen 32-bit little-endian words of a 64-byte block. -/
def wordsOfBlock (b : List Nat) : List Nat :=
  (List.range 16).map (fun j =>
    b.getD (4 * j) 0 + 256 * b.getD (4 * j + 1) 0 +
    65536 * b.getD (4 * j + 2) 0 + 16777216 * b.getD (4 * j + 3) 0)

/-- The 64-byte blocks of a padded message. -/
def md5Blocks (p : List Nat) : List (List Nat) :=
  (List.range (p.length / 64)).map (fun i => (p.drop (64 * i)).take 64)

/-- The 16-byte MD5 digest of a byte sequence. -/
def md5Digest (msg : List Nat) : List Nat :=
  let st := (md5Blocks (md5Pad msg)).foldl (fun st blk => md5Block st (wordsOfBlock blk))
    (0x67452301, 0xefcdab89, 0x98badcfe, 0x10325476)
  toLEBytes 4 st.1 ++ toLEBytes 4 st.2.1 ++ toLEBytes 4 st.2.2.1 ++ toLEBytes 4 st.2.2.2

/-- Lower-case hex digit. -/
def hexChar (n : Nat) : Char := if n < 10 then Char.ofNat (48 + n) else Char.ofNat (87 + n)

/-- Model of `hashlib.md5(content).hexdigest()`: the 32-character lower-case hex
rendering of the digest. -/
def md5Hexdigest (msg : List Nat) : String :=
  String.mk (((md5Digest msg).map (fun b => [hexChar (b / 16 % 16), hexChar (b % 16)])).flatten)

/-! ## Streamed download accumulation (lines 109–115) -/

/-- The chunk loop: `content = b''`, then for each chunk `content += chunk`, aborting
with `None` (the `TooLarge` outcome) as soon as `len(content) > budget`. -/
def accumulateGo (budget : Nat) : List Nat → List (List Nat) → Option (List Nat)
  | acc, [] => some acc
  | acc, c :: cs => if budget < (acc ++ c).length then none else accumulateGo budget (acc ++ c) cs

/-- Accumulate a response body from its chunks under the size budget. -/
def accumulateChunks (chunks : List (List Nat)) (budget : Nat) : Option (List Nat) :=
  accumulateGo budget [] chunks

/-! ## Dedup registry: `is_duplicate_image` (lines 65–71) -/

/-- The mutable state of a `UbuntuImageFetcher` plus the destination directory:
`downloaded_hashes` is the process-lifetime hash set, `files` the set of paths that
exist on disk (`os.path.exists` / files created by earlier saves). -/
structure FetcherState where
  downloaded_hashes : List String
  files : List String
deriving DecidableEq, Repr

/-- `is_duplicate_image`: hash the content; if the hex digest was seen return `True`,
otherwise record it and return `False`.  The check and the insertion are one unit. -/
def is_duplicate_image (st : FetcherState) (content : List Nat) : Bool × FetcherState :=
  let h := md5Hexdigest content
  if h ∈ st.downloaded_hashes then (true, st)
  else (false, { st with downloaded_hashes := h :: st.downloaded_hashes })

/-! ## Filename collision loop (lines 127–132) -/

/-- Decimal digits of `n`, most significant first, with explicit fuel so the kernel
can evaluate it (`fuel > n` suffices). -/
def toDecAux : Nat → Nat → List Char
  | 0, _ => []
  | fuel + 1, n => if n < 10 then [Char.ofNat (48 + n)] else toDecAux fuel (n / 10) ++ [Char.ofNat (48 + n % 10)]

/-- Model of Python `str(n)` for a natural number. -/
def natDecimal (n : Nat) : List Char := toDecAux (n + 1) n

/-- The candidate path `f"{base}_{counter}{ext}"`. -/
def collisionName (base ext : String) (counter : Nat) : String :=
  base ++ "_" ++ String.mk (natDecimal counter) ++ ext

/-- The `while os.path.exists(filepath)` loop: keep rewriting the path with an
incremented counter while it exists.  `files` is the set of existing paths; the
fuel argument makes the loop a total function (`files.length + 2` provably
suffices, see `resolveLoop_total`). -/
def resolveLoop (files : List String) (base ext : String) : Nat → String → Nat → Option String
  | 0, _, _ => none
  | fuel + 1, filepath, counter =>
    if filepath ∈ files then resolveLoop files base ext fuel (collisionName base ext counter) (counter + 1)
    else some filepath

/-! ## `download_image` (lines 91–146) -/

/-- A Python exception as seen by the two `except` clauses of `download_image`:
`requests.exceptions.RequestException` or any other `Exception`. -/
inductive PyExc where
  | requestException (msg : String)
  | otherException (msg : String)
deriving DecidableEq, Repr

/-- The terminal outcome of one URL's processing, distinguished by the message the
code prints before `return`: the `FetchOutcome` of the spec. -/
inductive FetchOutcome where
  | unsafeUrl
  | invalidResponse
  | tooLarge
  | duplicate
  | saved (filepath : String)
  | connectionError (msg : String)
  | otherError (msg : String)
deriving DecidableEq, Repr

/-- The external collaborators of one run: the HTTP transport (`requests.get`; a
`.error` result models a raised `requests.exceptions.RequestException`) and the
filesystem's willingness to write a given path (`true` models `open`/`write`
raising `OSError`, in which case no file is created). -/
structure FetchEnv where
  fetch : String → Except String PyResponse
  writeFails : String → Bool

/-- The body of the `try:` block of `download_image` (lines 97–139).  Returns the
state as mutated so far together with either an outcome or the exception about to
be caught by the `except` clauses.  The `resolveLoop` fuel `st.files.length + 2`
is provably sufficient (`resolveLoop_total`), so the `none` branch is dead code. -/
def try_download (env : FetchEnv) (st : FetcherState) (url : String) :
    FetcherState × Except PyExc FetchOutcome :=
  match env.fetch url with
  | .error e => (st, .error (.requestException e))
  | .ok resp =>
    match validate_response resp with
    | .error e => (st, .error (.otherException e))
    | .ok false => (st, .ok .invalidResponse)
    | .ok true =>
      match accumulateChunks resp.chunks max_file_size with
      | none => (st, .ok .tooLarge)
      | some content =>
        match is_duplicate_image st content with
        | (true, st1) => (st1, .ok .duplicate)
        | (false, st1) =>
          let content_type := strLower ((headerGet resp.headers "Content-Type").getD "")
          match get_filename_from_url url content_type with
          | .error e => (st1, .error (.otherException e))
          | .ok filename =>
            let filepath := os_path_join "Fetched_Images" filename
            let be := os_path_splitext filepath
            match resolveLoop st1.files be.1 be.2 (st1.files.length + 2) filepath 1 with
            | none => (st1, .error (.otherException "resolveLoop fuel exhausted"))
            | some finalpath =>
              if env.writeFails finalpath then (st1, .error (.otherException "OSError"))
              else ({ st1 with files := finalpath :: st1.files }, .ok (.saved finalpath))

/-- `download_image`: the safety check runs *outside* the `try:` block, so the
`ValueError` `urlparse` can raise propagates out of the function (`.error`); every
exception raised inside the `try:` is converted by the `except` clauses into a
`connectionError`/`otherError` outcome. -/
def download_image (env : FetchEnv) (st : FetcherState) (url : String) :
    Except String (FetchOutcome × FetcherState) :=
  match is_safe_url url with
  | .error e => .error e
  | .ok false => .ok (.unsafeUrl, st)
  | .ok true =>
    match try_download env st url with
    | (st', .ok o) => .ok (o, st')
    | (st', .error (.requestException m)) => .ok (.connectionError m, st')
    | (st', .error (.otherException m)) => .ok (.otherError m, st')

/-! ## The batch loop of `main` (lines 164–172) -/

/-- Python truthiness of `download_image`'s return value: `None` and the empty
string are falsy, a non-empty filepath is truthy. -/
def pyTruthy : FetchOutcome → Bool
  | .saved p => p ≠ ""
  | _ => false

/-- Whether an outcome is `Saved`. -/
def isSaved : FetchOutcome → Bool
  | .saved _ => true
  | _ => false

/-- The `for url in urls` loop of `main`: process each URL in order, threading the
fetcher state; an exception escaping `download_image` aborts the whole batch
(`.error`), exactly as an uncaught exception would end `main`. -/
def process_urls (env : FetchEnv) : FetcherState → List String → Except String (List FetchOutcome × FetcherState)
  | st, [] => .ok ([], st)
  | st, u :: us =>
    match download_image env st u with
    | .error e => .error e
    | .ok (o, st') =>
      match process_urls env st' us with
      | .error e => .error e
      | .ok (os, st'') => .ok (o :: os, st'')

/-- `success_count` as accumulated by `main`: one increment per truthy return. -/
def success_count (outcomes : List FetchOutcome) : Nat := outcomes.countP (fun o => pyTruthy o)

/-- The summary line `f"... {success_count} of {len(urls)} images fetched successfully."`,
as the pair (successes, total), produced only when the loop finishes. -/
def main_summary (env : FetchEnv) (st : FetcherState) (urls : List String) :
    Except String (Nat × Nat) :=
  match process_urls env st urls with
  | .error e => .error e
  | .ok (os, _) => .ok (success_count os, urls.length)

/-! ## Character and scheme lemmas -/

/-- `Char.toNat` after `Char.ofNat` on a valid code point below the surrogate range. -/
theorem toNat_ofNat_of_lt {m : Nat} (h : m < 55296) : (Char.ofNat m).toNat = m := by
  have hv : Nat.isValidChar m := Or.inl h
  simp only [Char.ofNat, hv, dif_pos]
  rfl

/-- Unfolding equation for `Char.toLower`. -/
theorem toLower_eq (c : Char) :
    c.toLower = if 65 ≤ c.toNat ∧ c.toNat ≤ 90 then Char.ofNat (c.toNat + 32) else c := rfl

/-- ASCII `toLower` is idempotent. -/
theorem toLower_toLower (c : Char) : c.toLower.toLower = c.toLower := by
  rw [toLower_eq c]
  by_cases h : 65 ≤ c.toNat ∧ c.toNat ≤ 90
  · rw [if_pos h, toLower_eq, toNat_ofNat_of_lt (by omega), if_neg (by omega)]
  · rw [if_neg h, toLower_eq, if_neg h]

/-- The scheme produced by `parseScheme` is already lowercase. -/
theorem parseScheme_lower (l : List Char) :
    ((parseScheme l).1).map Char.toLower = (parseScheme l).1 := by
  unfold parseScheme
  cases h : findIdx ':' l with
  | none => simp
  | some i =>
    dsimp only
    by_cases hc : 0 < i ∧ (l.take 1).all Char.isAlpha ∧ (l.take i).all isSchemeChar
    · rw [if_pos hc]
      dsimp only
      rw [List.map_map]
      exact List.map_congr_left (fun a _ => toLower_toLower a)
    · rw [if_neg hc]
      rfl

/-- The scheme field of a successful parse is the scheme recognized on the cleaned URL. -/
theorem scheme_of_pyUrlparse {url : String} {parts : UrlParts}
    (h : pyUrlparse url = .ok parts) :
    parts.scheme = (parseScheme (removeUnsafeBytes (lstripC0 url.data))).1 := by
  unfold pyUrlparse at h
  dsimp only at h
  split at h
  · split at h
    · exact absurd h (by simp)
    · exact (Except.ok.injEq _ _ ▸ h) ▸ rfl
  · exact (Except.ok.injEq _ _ ▸ h) ▸ rfl

/-! ## Claim C2: URL safety check -/

/-- C2 (corrected): for every URL string on which `urlparse` succeeds, `is_safe_url`
returns a boolean (never an error), and it returns `true` iff the parsed scheme,
compared case-insensitively, is exactly `http` or `https`.  (The claim's totality
part fails: `urlparse` raises `ValueError` on mismatched IPv6 brackets and
`is_safe_url` propagates it — see the counterexample.) -/
theorem C2_is_safe_url_scheme (url : String) (parts : UrlParts)
    (h : pyUrlparse url = .ok parts) :
    (is_safe_url url = .ok true ∨ is_safe_url url = .ok false) ∧
    (is_safe_url url = .ok true ↔
      (parts.scheme.map Char.toLower = "http".data ∨
       parts.scheme.map Char.toLower = "https".data)) := by
  have hlow : parts.scheme.map Char.toLower = parts.scheme := by
    rw [scheme_of_pyUrlparse h]; exact parseScheme_lower _
  have hs : is_safe_url url =
      .ok (decide (parts.scheme = "http".data ∨ parts.scheme = "https".data)) := by
    unfold is_safe_url
    rw [h]
  constructor
  · cases hd : decide (parts.scheme = "http".data ∨ parts.scheme = "https".data) with
    | true => exact Or.inl (by rw [hs, hd])
    | false => exact Or.inr (by rw [hs, hd])
  · rw [hs, hlow]
    constructor
    · intro hok
      have := Except.ok.inj hok
      exact of_decide_eq_true this
    · intro hp
      rw [decide_eq_true hp]

/-- C2 counterexample: `urlparse` raises `ValueError` on a malformed URL with a
mismatched IPv6 bracket, so `is_safe_url` raises instead of returning `false`. -/
theorem C2_counterexample : is_safe_url "http://[a" = .error "Invalid IPv6 URL" := rfl

/-- C2 witness: a concrete upper-case-scheme URL parses, and the theorem applied to
it yields `true`. -/
theorem C2_witness : is_safe_url "HTTP://Example.com/a.png" = .ok true :=
  ((C2_is_safe_url_scheme "HTTP://Example.com/a.png"
      ⟨"http".data, "Example.com".data, "/a.png".data⟩ rfl).2).mpr (Or.inl (by decide))

/-! ## Claim C1: per-URL fault containment -/

/-- A transport that refuses every connection and a filesystem that accepts writes. -/
def noNetEnv : FetchEnv := ⟨fun _ => .error "connection refused", fun _ => false⟩

/-- For a URL that `urlparse` accepts, `download_image` always returns a terminal
outcome — every exception inside the `try:` block is converted by the `except`
clauses. -/
theorem download_image_total (env : FetchEnv) (st : FetcherState) (url : String)
    (h : ∃ parts, pyUrlparse url = .ok parts) :
    ∃ o st', download_image env st url = .ok (o, st') := by
  obtain ⟨parts, hp⟩ := h
  unfold download_image is_safe_url
  rw [hp]
  dsimp only
  cases hd : decide (parts.scheme = "http".data ∨ parts.scheme = "https".data) with
  | false => exact ⟨.unsafeUrl, st, rfl⟩
  | true =>
    rcases htry : try_download env st url with ⟨st', e⟩
    cases e with
    | ok o => exact ⟨o, st', rfl⟩
    | error exc =>
      cases exc with
      | requestException m => exact ⟨.connectionError m, st', rfl⟩
      | otherException m => exact ⟨.otherError m, st', rfl⟩

/-- C1 (corrected): for every batch whose URLs all parse without `ValueError`,
every URL's processing yields exactly one terminal outcome, no exception escapes,
and the whole batch is processed (one outcome per URL).  (As stated the claim
fails: a URL with mismatched IPv6 brackets makes `urlparse` raise *outside* the
`try:` block and the exception aborts the batch — see the counterexample.) -/
theorem C1_fault_containment (env : FetchEnv) (st : FetcherState) (urls : List String)
    (h : ∀ u ∈ urls, ∃ parts, pyUrlparse u = .ok parts) :
    ∃ outcomes st', process_urls env st urls = .ok (outcomes, st') ∧
      outcomes.length = urls.length := by
  induction urls generalizing st with
  | nil => exact ⟨[], st, rfl, rfl⟩
  | cons u us ih =>
    obtain ⟨o, st1, h1⟩ := download_image_total env st u (h u (by simp))
    obtain ⟨os, st2, h2, hlen⟩ := ih st1 (fun v hv => h v (by simp [hv]))
    refine ⟨o :: os, st2, ?_, by simp [hlen]⟩
    unfold process_urls
    rw [h1]
    dsimp only
    rw [h2]

/-- C1 counterexample: a URL with a mismatched IPv6 bracket raises `ValueError`
out of `download_image` (the safety check runs outside the `try:`), aborting the
batch, so the remaining URL is never processed. -/
theorem C1_counterexample :
    process_urls noNetEnv ⟨[], []⟩ ["http://[a", "http://example.com/a.png"] =
      .error "Invalid IPv6 URL" := rfl

/-- C1 witness: a concrete two-URL batch (one unsafe scheme, one connection
failure) is fully processed with one outcome per URL. -/
theorem C1_witness :
    ∃ outcomes st', process_urls noNetEnv ⟨[], []⟩
      ["ftp://example.com/b.jpg", "http://example.com/a.png"] = .ok (outcomes, st') ∧
      outcomes.length = 2 :=
  C1_fault_containment noNetEnv ⟨[], []⟩ _ (by
    intro u hu
    simp only [List.mem_cons, List.not_mem_nil, or_false] at hu
    rcases hu with rfl | rfl
    · exact ⟨_, rfl⟩
    · exact ⟨_, rfl⟩)

/-! ## Claim C3: streamed size-ceiling enforcement -/

/-- The chunk loop aborts iff the fully accumulated length would exceed the budget
(given that the already-accumulated part is counted in).  The check runs after every
chunk, and chunk lengths are non-negative, so some prefix crosses iff the total does. -/
theorem accumulateGo_eq_none_iff (budget : Nat) (chunks : List (List Nat)) :
    ∀ acc : List Nat,
      accumulateGo budget acc chunks = none ↔
        (chunks ≠ [] ∧ budget < acc.length + chunks.flatten.length) := by
  induction chunks with
  | nil => intro acc; simp [accumulateGo]
  | cons c cs ih =>
    intro acc
    unfold accumulateGo
    by_cases h : budget < (acc ++ c).length
    · rw [if_pos h]
      simp only [List.length_append] at h
      constructor
      · intro _
        refine ⟨List.cons_ne_nil _ _, ?_⟩
        simp only [List.flatten_cons, List.length_append]
        omega
      · intro _; rfl
    · rw [if_neg h]
      rw [ih (acc ++ c)]
      simp only [List.length_append] at h
      push_neg at h
      constructor
      · rintro ⟨hne, hlt⟩
        refine ⟨List.cons_ne_nil _ _, ?_⟩
        simp only [List.length_append, List.flatten_cons] at hlt ⊢
        omega
      · rintro ⟨-, hlt⟩
        simp only [List.flatten_cons, List.length_append] at hlt
        have hcs : cs ≠ [] := by
          intro hnil
          subst hnil
          simp only [List.flatten_nil, List.length_nil] at hlt
          omega
        exact ⟨hcs, by simp only [List.length_append]; omega⟩

/-- Top-level form: the streamed accumulation returns `None` (the `TooLarge` abort)
iff the full body strictly exceeds the budget. -/
theorem accumulateChunks_eq_none_iff (chunks : List (List Nat)) (budget : Nat) :
    accumulateChunks chunks budget = none ↔ budget < chunks.flatten.length := by
  unfold accumulateChunks
  rw [accumulateGo_eq_none_iff]
  constructor
  · rintro ⟨-, h⟩
    simpa using h
  · intro h
    refine ⟨?_, by simpa using h⟩
    intro hnil
    subst hnil
    simp at h

/-- When the loop does return a body, it is the concatenation of all chunks. -/
theorem accumulateGo_eq_some (budget : Nat) (chunks : List (List Nat)) :
    ∀ acc r, accumulateGo budget acc chunks = some r → r = acc ++ chunks.flatten := by
  induction chunks with
  | nil =>
    intro acc r h
    simp [accumulateGo] at h
    simp [h.symm]
  | cons c cs ih =>
    intro acc r h
    unfold accumulateGo at h
    by_cases hb : budget < (acc ++ c).length
    · rw [if_pos hb] at h; cases h
    · rw [if_neg hb] at h
      have := ih (acc ++ c) r h
      simp only [List.flatten_cons, this, List.append_assoc]

/-- The abort happens right after the first chunk that crosses the ceiling, and
nothing past that chunk can change the result. -/
theorem accumulateGo_first_crossing (budget : Nat) (chunks : List (List Nat)) :
    ∀ acc : List Nat, acc.length ≤ budget →
      budget < acc.length + chunks.flatten.length →
      ∃ i, 1 ≤ i ∧ i ≤ chunks.length ∧
        budget < acc.length + ((chunks.take i).flatten).length ∧
        (∀ j < i, acc.length + ((chunks.take j).flatten).length ≤ budget) ∧
        (∀ rest, accumulateGo budget acc (chunks.take i ++ rest) = none) := by
  induction chunks with
  | nil =>
    intro acc h1 h2
    simp only [List.flatten_nil, List.length_nil] at h2
    omega
  | cons c cs ih =>
    intro acc h1 h2
    by_cases h : budget < (acc ++ c).length
    · refine ⟨1, le_refl 1, by simp, ?_, ?_, ?_⟩
      · simp only [List.take_succ_cons, List.take_zero, List.flatten_cons, List.flatten_nil,
          List.append_nil, List.length_append] at *
        omega
      · intro j hj
        interval_cases j
        simpa using h1
      · intro rest
        simp only [List.take_succ_cons, List.take_zero, List.nil_append, List.cons_append]
        unfold accumulateGo
        rw [if_pos h]
    · push_neg at h
      have h2' : budget < (acc ++ c).length + cs.flatten.length := by
        simp only [List.flatten_cons, List.length_append] at h2 ⊢
        omega
      obtain ⟨i, hi1, hile, hcross, hmin, habort⟩ := ih (acc ++ c) h h2'
      refine ⟨i + 1, by omega, by simpa using hile, ?_, ?_, ?_⟩
      · simp only [List.take_succ_cons, List.flatten_cons, List.length_append] at hcross ⊢
        omega
      · intro j hj
        cases j with
        | zero => simpa using h1
        | succ j' =>
          have := hmin j' (by omega)
          simp only [List.take_succ_cons, List.flatten_cons, List.length_append] at this ⊢
          omega
      · intro rest
        simp only [List.take_succ_cons, List.cons_append]
        unfold accumulateGo
        rw [if_neg (by push_neg; exact h)]
        exact habort rest

/-- Reduction of `download_image` when the safety check passes and the `try:` body
returns an outcome. -/
theorem download_image_of_try_ok (env : FetchEnv) (st : FetcherState) (url : String)
    (hs : is_safe_url url = .ok true) {st' : FetcherState} {o : FetchOutcome}
    (ht : try_download env st url = (st', .ok o)) :
    download_image env st url = .ok (o, st') := by
  unfold download_image
  rw [hs]
  dsimp only
  rw [ht]

/-- Reduction of `download_image` when the `try:` body raises a generic exception:
the second `except` clause converts it into the unclassified failure. -/
theorem download_image_of_try_exc (env : FetchEnv) (st : FetcherState) (url : String)
    (hs : is_safe_url url = .ok true) {st' : FetcherState} {m : String}
    (ht : try_download env st url = (st', .error (.otherException m))) :
    download_image env st url = .ok (.otherError m, st') := by
  unfold download_image
  rw [hs]
  dsimp only
  rw [ht]

/-- The `try:` body under a response whose accumulated body overflows: `TooLarge`,
state untouched. -/
theorem try_download_tooLarge (env : FetchEnv) (st : FetcherState) (url : String)
    (resp : PyResponse) (hf : env.fetch url = .ok resp)
    (hv : validate_response resp = .ok true)
    (hacc : accumulateChunks resp.chunks max_file_size = none) :
    try_download env st url = (st, .ok .tooLarge) := by
  unfold try_download
  rw [hf]
  dsimp only
  rw [hv]
  dsimp only
  rw [hacc]

/-- C3 (confirmed): once a URL reaches the download phase (safety check and
validation passed), a body that exceeds the 10 MiB ceiling makes the outcome
`TooLarge` with the state unchanged (buffer discarded, no hash recorded, no file
written), and the loop aborts immediately after the first chunk that crosses the
ceiling, never touching later chunks. -/
theorem C3_streamed_size_ceiling (env : FetchEnv) (st : FetcherState) (url : String)
    (resp : PyResponse)
    (hf : env.fetch url = .ok resp)
    (hs : is_safe_url url = .ok true)
    (hv : validate_response resp = .ok true)
    (hbig : max_file_size < resp.chunks.flatten.length) :
    download_image env st url = .ok (.tooLarge, st) ∧
    ∃ i, 1 ≤ i ∧ i ≤ resp.chunks.length ∧
      max_file_size < ((resp.chunks.take i).flatten).length ∧
      (∀ j < i, ((resp.chunks.take j).flatten).length ≤ max_file_size) ∧
      ∀ rest, accumulateChunks (resp.chunks.take i ++ rest) max_file_size = none := by
  have hacc : accumulateChunks resp.chunks max_file_size = none :=
    (accumulateChunks_eq_none_iff _ _).mpr hbig
  refine ⟨download_image_of_try_ok env st url hs
    (try_download_tooLarge env st url resp hf hv hacc), ?_⟩
  obtain ⟨i, h1, h2, h3, h4, h5⟩ :=
    accumulateGo_first_crossing max_file_size resp.chunks [] (by simp) (by simpa using hbig)
  exact ⟨i, h1, h2, by simpa using h3, fun j hj => by simpa using h4 j hj, h5⟩

/-- A transport serving a single response whose one chunk is one byte over the
ceiling. -/
def bigEnv : FetchEnv :=
  ⟨fun _ => .ok ⟨200, [("Content-Type", "image/png")], [List.replicate 10485761 0]⟩,
   fun _ => false⟩

/-- C3 witness: the oversized body yields the `TooLarge` outcome with no state
change. -/
theorem C3_witness :
    download_image bigEnv ⟨[], []⟩ "http://example.com/big.png" = .ok (.tooLarge, ⟨[], []⟩) :=
  (C3_streamed_size_ceiling bigEnv ⟨[], []⟩ "http://example.com/big.png"
    ⟨200, [("Content-Type", "image/png")], [List.replicate 10485761 0]⟩
    rfl rfl rfl (by
      rw [List.flatten_cons, List.flatten_nil, List.append_nil, List.length_replicate]
      norm_num [max_file_size])).1

/-! ## Claim C4: response validation -/

/-- C4 (confirmed): the three rules are checked in order with short-circuiting —
a non-200 status returns `False` no matter the headers, a missing/non-`image/`
Content-Type returns `False` no matter the Content-Length — and on the domain
where validation returns at all (Content-Length absent, empty, or parsing as an
integer; the non-empty non-integer case raises, see C10), it accepts iff the
status is exactly 200, the Content-Type header is present and starts with
`image/` case-insensitively, and any integer Content-Length is within the
10 MiB budget. -/
theorem C4_validate_rules (r : PyResponse) :
    (r.status_code ≠ 200 → validate_response r = .ok false) ∧
    ((¬ ∃ v, headerGet r.headers "Content-Type" = some v ∧
        strStartsWith (strLower v) "image/" = true) → validate_response r = .ok false) ∧
    ((∀ cl, headerGet r.headers "Content-Length" = some cl → cl ≠ "" →
        (pythonInt cl).isSome) →
      (validate_response r = .ok true ↔
        (r.status_code = 200 ∧
         (∃ v, headerGet r.headers "Content-Type" = some v ∧
            strStartsWith (strLower v) "image/" = true) ∧
         (∀ cl n, headerGet r.headers "Content-Length" = some cl →
            pythonInt cl = some n → n ≤ (max_file_size : Int))))) := by
  refine ⟨?_, ?_, ?_⟩
  · intro h
    unfold validate_response
    rw [if_pos h]
  · intro h
    unfold validate_response
    by_cases hst : r.status_code ≠ 200
    · rw [if_pos hst]
    · rw [if_neg hst]
      have hcts : ¬ strStartsWith (strLower ((headerGet r.headers "Content-Type").getD "")) "image/" = true := by
        cases hl : headerGet r.headers "Content-Type" with
        | none => decide
        | some v =>
          intro hsw
          exact h ⟨v, hl, hsw⟩
      rw [if_pos hcts]
  · intro hcl
    unfold validate_response
    by_cases hst : r.status_code ≠ 200
    · rw [if_pos hst]
      simp only [false_iff, Except.ok.injEq, Bool.false_eq_true]
      rintro ⟨h200, -, -⟩
      exact hst h200
    · rw [if_neg hst]
      push_neg at hst
      by_cases hcts : strStartsWith (strLower ((headerGet r.headers "Content-Type").getD "")) "image/" = true
      · rw [if_neg (by rw [hcts]; exact fun h => h rfl)]
        have hctex : ∃ v, headerGet r.headers "Content-Type" = some v ∧
            strStartsWith (strLower v) "image/" = true := by
          cases hl : headerGet r.headers "Content-Type" with
          | none =>
            rw [hl] at hcts
            exact absurd hcts (by decide)
          | some v =>
            rw [hl] at hcts
            exact ⟨v, rfl, hcts⟩
        cases hlk : headerGet r.headers "Content-Length" with
        | none =>
          dsimp only
          exact ⟨fun _ => ⟨hst, hctex, fun cl n h1 _ => by cases h1⟩, fun _ => rfl⟩
        | some cl =>
          dsimp only
          by_cases hne : cl = ""
          · rw [if_pos hne]
            refine ⟨fun _ => ⟨hst, hctex, fun cl' n h1 h2 => ?_⟩, fun _ => rfl⟩
            cases h1
            rw [hne] at h2
            cases h2
          · rw [if_neg hne]
            obtain ⟨n, hn⟩ := Option.isSome_iff_exists.mp (hcl cl hlk hne)
            rw [hn]
            dsimp only
            by_cases hbig : n > (max_file_size : Int)
            · rw [if_pos hbig]
              constructor
              · intro h
                exact absurd h (by simp)
              · rintro ⟨-, -, hb⟩
                exact absurd (hb cl n rfl hn) (by omega)
            · rw [if_neg hbig]
              refine ⟨fun _ => ⟨hst, hctex, fun cl' n' h1 h2 => ?_⟩, fun _ => rfl⟩
              cases h1
              rw [hn] at h2
              cases h2
              omega
      · rw [if_pos hcts]
        simp only [false_iff, Except.ok.injEq, Bool.false_eq_true]
        rintro ⟨-, ⟨v, hv, hsw⟩, -⟩
        rw [hv] at hcts
        exact hcts hsw

/-- C4 witness: a concrete 200 response with an upper-case image content type and
an in-budget integer Content-Length is accepted. -/
theorem C4_witness :
    validate_response ⟨200, [("content-type", "IMAGE/PNG"), ("Content-Length", "100")], []⟩ = .ok true :=
  ((C4_validate_rules ⟨200, [("content-type", "IMAGE/PNG"), ("Content-Length", "100")], []⟩).2.2
    (by
      intro cl hlk hne
      rw [show headerGet ([("content-type", "IMAGE/PNG"), ("Content-Length", "100")] :
        List (String × String)) "Content-Length" = some "100" from rfl] at hlk
      cases hlk
      rfl)).mpr
    ⟨rfl, ⟨"IMAGE/PNG", rfl, by decide⟩, by
      intro cl n hlk hpi
      rw [show headerGet ([("content-type", "IMAGE/PNG"), ("Content-Length", "100")] :
        List (String × String)) "Content-Length" = some "100" from rfl] at hlk
      cases hlk
      rw [show pythonInt "100" = some (100 : Int) from rfl] at hpi
      cases hpi
      decide⟩

/-! ## Claim C10: non-integer Content-Length -/

/-- A transport serving a 200 image response whose Content-Length is present but
empty (`""` is falsy in Python, so `int()` is never called on it). -/
def emptyClEnv : FetchEnv :=
  ⟨fun _ => .ok ⟨200, [("Content-Type", "image/png"), ("Content-Length", "")], [[1, 2, 3]]⟩,
   fun _ => false⟩

/-- C10 counterexample: a Content-Length that is present but *empty* is not a
decimal integer string, yet the URL is saved rather than failing — `if
content_length and ...` skips the `int()` call on a falsy value. -/
theorem C10_counterexample :
    download_image emptyClEnv ⟨[], []⟩ "http://example.com/pic.png" =
      .ok (.saved "Fetched_Images/pic.png",
        ⟨[md5Hexdigest [1, 2, 3]], ["Fetched_Images/pic.png"]⟩) := rfl

/-- C10 (corrected): for a 200 image response whose Content-Length is present,
*non-empty* and not a decimal integer string, `int()` raises `ValueError` during
validation, the generic `except Exception` handler catches it, and the outcome is
the unclassified failure with the state unchanged (no file written).  (As stated
the claim fails for the empty string, which is falsy — see the counterexample.) -/
theorem C10_nonint_content_length (env : FetchEnv) (st : FetcherState) (url : String)
    (resp : PyResponse) (cl : String)
    (hf : env.fetch url = .ok resp)
    (hs : is_safe_url url = .ok true)
    (hst : resp.status_code = 200)
    (hct : strStartsWith (strLower ((headerGet resp.headers "Content-Type").getD "")) "image/" = true)
    (hlk : headerGet resp.headers "Content-Length" = some cl)
    (hne : cl ≠ "")
    (hpi : pythonInt cl = none) :
    download_image env st url = .ok (.otherError "ValueError", st) := by
  have hv : validate_response resp = .error "ValueError" := by
    unfold validate_response
    rw [if_neg (by rw [hst]; exact fun h => h rfl)]
    rw [if_neg (by rw [hct]; exact fun h => h rfl)]
    rw [hlk]
    dsimp only
    rw [if_neg hne, hpi]
  exact download_image_of_try_exc env st url hs (by
    unfold try_download
    rw [hf]
    dsimp only
    rw [hv])

/-- A transport serving a 200 image response with Content-Length `"abc"`. -/
def abcClEnv : FetchEnv :=
  ⟨fun _ => .ok ⟨200, [("Content-Type", "image/png"), ("Content-Length", "abc")], [[1, 2, 3]]⟩,
   fun _ => false⟩

/-- C10 witness: the amended theorem applied to the `"abc"` Content-Length. -/
theorem C10_witness :
    download_image abcClEnv ⟨[], []⟩ "http://example.com/pic.png" =
      .ok (.otherError "ValueError", ⟨[], []⟩) :=
  C10_nonint_content_length abcClEnv ⟨[], []⟩ "http://example.com/pic.png"
    ⟨200, [("Content-Type", "image/png"), ("Content-Length", "abc")], [[1, 2, 3]]⟩
    "abc" rfl rfl rfl (by decide) rfl (by decide) rfl

/-! ## Claim C6: filename collision resolution -/

/-- Decimal decoding, a left inverse of `toDecAux`. -/
def fromDec (l : List Char) : Nat := l.foldl (fun a c => a * 10 + (c.toNat - 48)) 0

/-- Decoding after appending one digit character. -/
theorem fromDec_append (l : List Char) (c : Char) :
    fromDec (l ++ [c]) = 10 * fromDec l + (c.toNat - 48) := by
  unfold fromDec
  rw [List.foldl_append]
  simp [Nat.mul_comm]

/-- Decimal rendering round-trips through decoding (given enough fuel). -/
theorem toDecAux_roundtrip : ∀ fuel n, n < fuel → fromDec (toDecAux fuel n) = n := by
  intro fuel
  induction fuel with
  | zero => intro n h; omega
  | succ fuel ih =>
    intro n h
    unfold toDecAux
    by_cases h10 : n < 10
    · rw [if_pos h10]
      show fromDec [Char.ofNat (48 + n)] = n
      unfold fromDec
      simp only [List.foldl_cons, List.foldl_nil, Nat.zero_mul, Nat.zero_add]
      rw [toNat_ofNat_of_lt (by omega)]
      omega
    · rw [if_neg h10]
      rw [fromDec_append, ih (n / 10) (by omega), toNat_ofNat_of_lt (by omega)]
      omega

/-- Python's `str(n)` is injective. -/
theorem natDecimal_inj {m n : Nat} (h : natDecimal m = natDecimal n) : m = n := by
  have hm := toDecAux_roundtrip (m + 1) m (Nat.lt_succ_self m)
  have hn := toDecAux_roundtrip (n + 1) n (Nat.lt_succ_self n)
  unfold natDecimal at h
  rw [← hm, ← hn, h]

/-- The collision candidate `f"{base}_{counter}{ext}"` is injective in the counter. -/
theorem collisionName_inj (base ext : String) {i j : Nat}
    (h : collisionName base ext i = collisionName base ext j) : i = j := by
  unfold collisionName at h
  have hd := congrArg String.data h
  simp only [String.data_append] at hd
  have h1 := List.append_cancel_right hd
  have h2 := List.append_cancel_left h1
  exact natDecimal_inj (show natDecimal i = natDecimal j from h2)

/-- The sequence of paths the `while` loop tries: the original candidate, then
`{base}_{1}{ext}`, `{base}_{2}{ext}`, … -/
def candSeq (base ext fp : String) : Nat → String
  | 0 => fp
  | i + 1 => collisionName base ext (i + 1)

/-- The loop, entered at the `k`-th candidate with counter `k + 1`, stops at the
first non-existing candidate, provided the fuel reaches one. -/
theorem resolveLoop_go (files : List String) (base ext fp : String) :
    ∀ fuel k, (∃ j, j < fuel ∧ candSeq base ext fp (k + j) ∉ files) →
      ∃ m, candSeq base ext fp (k + m) ∉ files ∧
        (∀ j < m, candSeq base ext fp (k + j) ∈ files) ∧
        resolveLoop files base ext fuel (candSeq base ext fp k) (k + 1) =
          some (candSeq base ext fp (k + m)) := by
  intro fuel
  induction fuel with
  | zero =>
    rintro k ⟨j, hj, -⟩
    omega
  | succ fuel ih =>
    rintro k ⟨j, hj, hfree⟩
    by_cases hmem : candSeq base ext fp k ∈ files
    · have hex' : ∃ j', j' < fuel ∧ candSeq base ext fp (k + 1 + j') ∉ files := by
        cases j with
        | zero => exact absurd (by simpa using hfree) (by simpa using hmem)
        | succ j' =>
          refine ⟨j', by omega, ?_⟩
          have : k + 1 + j' = k + (j' + 1) := by omega
          rw [this]
          exact hfree
      obtain ⟨m, h1, h2, h3⟩ := ih (k + 1) hex'
      refine ⟨m + 1, ?_, ?_, ?_⟩
      · have : k + (m + 1) = k + 1 + m := by omega
        rw [this]
        exact h1
      · intro j hj'
        cases j with
        | zero => simpa using hmem
        | succ j'' =>
          have := h2 j'' (by omega)
          have heq : k + 1 + j'' = k + (j'' + 1) := by omega
          rw [heq] at this
          exact this
      · unfold resolveLoop
        rw [if_pos hmem]
        have hgoal : k + (m + 1) = k + 1 + m := by omega
        rw [hgoal]
        exact h3
    · refine ⟨0, by simpa using hmem, fun j hj' => absurd hj' (by omega), ?_⟩
      unfold resolveLoop
      rw [if_neg hmem]
      rfl

/-- Pigeonhole: among the candidates `{base}_{1}{ext}` … `{base}_{n+1}{ext}` over a
file set of size `n`, at least one does not exist. -/
theorem exists_free_candidate (files : List String) (base ext : String) :
    ∃ j, 1 ≤ j ∧ j ≤ files.length + 1 ∧ collisionName base ext j ∉ files := by
  by_contra hall
  push_neg at hall
  set L := (List.range (files.length + 1)).map (fun t => collisionName base ext (t + 1)) with hL
  have hnodup : L.Nodup := by
    refine List.Nodup.map ?_ (List.nodup_range _)
    intro a b hab
    have := collisionName_inj base ext hab
    omega
  have hsub : ∀ x ∈ L, x ∈ files := by
    intro x hx
    rw [hL] at hx
    simp only [List.mem_map, List.mem_range] at hx
    obtain ⟨t, ht, rfl⟩ := hx
    exact hall (t + 1) (by omega) (by omega)
  have hcard : L.toFinset.card ≤ files.toFinset.card := by
    apply Finset.card_le_card
    intro x hx
    rw [List.mem_toFinset] at hx ⊢
    exact hsub x hx
  rw [List.toFinset_card_of_nodup hnodup] at hcard
  have hlen : L.length = files.length + 1 := by
    rw [hL]
    simp
  have hfl : files.toFinset.card ≤ files.length := files.toFinset_card_le
  omega

/-- The collision loop with fuel `files.length + 2` always succeeds, returns a
non-existing path, keeps a free candidate unchanged, and otherwise picks the first
free `{base}_{counter}{ext}`. -/
theorem resolveLoop_total (files : List String) (base ext fp : String) :
    ∃ p, resolveLoop files base ext (files.length + 2) fp 1 = some p ∧
      p ∉ files ∧
      (fp ∉ files → p = fp) ∧
      (fp ∈ files → ∃ k, 1 ≤ k ∧ p = collisionName base ext k ∧
        ∀ j, 1 ≤ j → j < k → collisionName base ext j ∈ files) := by
  obtain ⟨j, hj1, hj2, hjfree⟩ := exists_free_candidate files base ext
  have hex : ∃ j', j' < files.length + 2 ∧ candSeq base ext fp (0 + j') ∉ files := by
    refine ⟨j, by omega, ?_⟩
    have hj0 : (0 : Nat) + j = j := by omega
    rw [hj0]
    cases j with
    | zero => omega
    | succ t => exact hjfree
  obtain ⟨m, h1, h2, h3⟩ := resolveLoop_go files base ext fp (files.length + 2) 0 hex
  simp only [Nat.zero_add] at h1 h2 h3
  refine ⟨candSeq base ext fp m, h3, h1, ?_, ?_⟩
  · intro hfp
    cases m with
    | zero => rfl
    | succ t => exact absurd (h2 0 (by omega)) (by simpa [candSeq] using hfp)
  · intro hfp
    cases m with
    | zero => exact absurd hfp (by simpa [candSeq] using h1)
    | succ t =>
      refine ⟨t + 1, by omega, rfl, ?_⟩
      intro j' hj'1 hj'2
      have := h2 j' hj'2
      cases j' with
      | zero => omega
      | succ t' => exact this

/-! ## Inversion of a `Saved` outcome -/

/-- Characterization of a single `is_duplicate_image` call. -/
theorem is_duplicate_image_inv (st : FetcherState) (content : List Nat)
    (b : Bool) (st1 : FetcherState) (h : is_duplicate_image st content = (b, st1)) :
    (b = true → md5Hexdigest content ∈ st.downloaded_hashes ∧ st1 = st) ∧
    (b = false → md5Hexdigest content ∉ st.downloaded_hashes ∧
      st1 = ⟨md5Hexdigest content :: st.downloaded_hashes, st.files⟩) := by
  unfold is_duplicate_image at h
  by_cases hm : md5Hexdigest content ∈ st.downloaded_hashes
  · rw [if_pos hm] at h
    injection h with hb hst
    subst hst
    constructor
    · intro _
      exact ⟨hm, rfl⟩
    · intro hfalse
      rw [← hb] at hfalse
      exact nomatch hfalse
  · rw [if_neg hm] at h
    injection h with hb hst
    subst hst
    constructor
    · intro htrue
      rw [← hb] at htrue
      exact nomatch htrue
    · intro _
      exact ⟨hm, rfl⟩

/-- Any path the collision loop returns is either the original candidate or a
`{base}_{counter}{ext}` rewrite. -/
theorem resolveLoop_result_shape (files : List String) (base ext : String) :
    ∀ fuel fp k p, resolveLoop files base ext fuel fp k = some p →
      p = fp ∨ ∃ t, p = collisionName base ext t := by
  intro fuel
  induction fuel with
  | zero => intro fp k p h; cases h
  | succ fuel ih =>
    intro fp k p h
    unfold resolveLoop at h
    by_cases hmem : fp ∈ files
    · rw [if_pos hmem] at h
      rcases ih (collisionName base ext k) (k + 1) p h with h' | ⟨t, ht⟩
      · exact Or.inr ⟨k, h'⟩
      · exact Or.inr ⟨t, ht⟩
    · rw [if_neg hmem] at h
      cases h
      exact Or.inl rfl

/-- Any path the collision loop returns does not exist. -/
theorem resolveLoop_result_not_mem (files : List String) (base ext : String) :
    ∀ fuel fp k p, resolveLoop files base ext fuel fp k = some p → p ∉ files := by
  intro fuel
  induction fuel with
  | zero => intro fp k p h; cases h
  | succ fuel ih =>
    intro fp k p h
    unfold resolveLoop at h
    by_cases hmem : fp ∈ files
    · rw [if_pos hmem] at h
      exact ih (collisionName base ext k) (k + 1) p h
    · rw [if_neg hmem] at h
      cases h
      exact hmem

/-- A string whose left part has nonempty data is not the empty string. -/
theorem append_ne_empty_left (s t : String) (hs : s.data ≠ []) : s ++ t ≠ "" := by
  intro h
  have hd : s.data ++ t.data = [] := by
    have := congrArg String.data h
    rwa [String.data_append] at this
  rcases List.append_eq_nil.mp hd with ⟨h1, -⟩
  exact hs h1

/-- A collision rewrite is never the empty string (it contains the underscore). -/
theorem collisionName_ne_empty (base ext : String) (t : Nat) :
    collisionName base ext t ≠ "" := by
  unfold collisionName
  rw [show base ++ "_" ++ String.mk (natDecimal t) ++ ext =
    (base ++ "_" ++ String.mk (natDecimal t)) ++ ext from rfl]
  apply append_ne_empty_left
  intro hd
  rw [show (base ++ "_" ++ String.mk (natDecimal t)).data =
    (base ++ "_").data ++ natDecimal t from String.data_append _ _] at hd
  rcases List.append_eq_nil.mp hd with ⟨h1, -⟩
  rw [String.data_append] at h1
  rcases List.append_eq_nil.mp h1 with ⟨-, h2⟩
  exact absurd h2 (by decide)

/-- Joining under `Fetched_Images` never yields the empty string. -/
theorem os_path_join_ne_empty (b : String) : os_path_join "Fetched_Images" b ≠ "" := by
  unfold os_path_join
  by_cases h1 : strStartsWith b "/" = true
  · rw [if_pos h1]
    intro hb
    rw [hb] at h1
    exact absurd h1 (by decide)
  · rw [if_neg h1, if_neg (by decide)]
    exact append_ne_empty_left _ _ (by decide)

/-- Inversion of the `try:` body on a `Saved` outcome: the response was fetched and
validated, the body accumulated under the ceiling, its hash was new and is now
recorded, the filename was derived, the path collision-resolved against the
existing files, the write succeeded, and the final state records hash and file. -/
theorem try_download_saved_inv (env : FetchEnv) (st : FetcherState) (url : String)
    (st' : FetcherState) (p : String)
    (h : try_download env st url = (st', .ok (.saved p))) :
    ∃ resp content filename,
      env.fetch url = .ok resp ∧
      validate_response resp = .ok true ∧
      accumulateChunks resp.chunks max_file_size = some content ∧
      md5Hexdigest content ∉ st.downloaded_hashes ∧
      get_filename_from_url url
        (strLower ((headerGet resp.headers "Content-Type").getD "")) = .ok filename ∧
      resolveLoop st.files
        (os_path_splitext (os_path_join "Fetched_Images" filename)).1
        (os_path_splitext (os_path_join "Fetched_Images" filename)).2
        (st.files.length + 2) (os_path_join "Fetched_Images" filename) 1 = some p ∧
      env.writeFails p = false ∧
      st'.downloaded_hashes = md5Hexdigest content :: st.downloaded_hashes ∧
      st'.files = p :: st.files := by
  unfold try_download at h
  cases hf : env.fetch url with
  | error e => rw [hf] at h; simp at h
  | ok resp =>
    rw [hf] at h
    dsimp only at h
    cases hv : validate_response resp with
    | error e => rw [hv] at h; simp at h
    | ok b =>
      rw [hv] at h
      cases b with
      | false => simp at h
      | true =>
        dsimp only at h
        cases hacc : accumulateChunks resp.chunks max_file_size with
        | none => rw [hacc] at h; simp at h
        | some content =>
          rw [hacc] at h
          dsimp only at h
          rcases hdup : is_duplicate_image st content with ⟨bd, st1⟩
          rw [hdup] at h
          cases bd with
          | true => simp at h
          | false =>
            dsimp only at h
            obtain ⟨hnew, hst1⟩ := (is_duplicate_image_inv st content false st1 hdup).2 rfl
            cases hfn : get_filename_from_url url
                (strLower ((headerGet resp.headers "Content-Type").getD "")) with
            | error e => rw [hfn] at h; simp at h
            | ok filename =>
              rw [hfn] at h
              dsimp only at h
              cases hres : resolveLoop st1.files
                  (os_path_splitext (os_path_join "Fetched_Images" filename)).1
                  (os_path_splitext (os_path_join "Fetched_Images" filename)).2
                  (st1.files.length + 2) (os_path_join "Fetched_Images" filename) 1 with
              | none => rw [hres] at h; simp at h
              | some fp2 =>
                rw [hres] at h
                dsimp only at h
                by_cases hw : env.writeFails fp2 = true
                · rw [if_pos hw] at h
                  simp at h
                · rw [if_neg hw] at h
                  simp only [Prod.mk.injEq, Except.ok.injEq, FetchOutcome.saved.injEq] at h
                  obtain ⟨hst', hfp⟩ := h
                  subst hfp
                  refine ⟨resp, content, filename, rfl, hv, hacc, hnew, hfn, ?_, ?_, ?_, ?_⟩
                  · rw [hst1] at hres
                    exact hres
                  · simpa using hw
                  · rw [← hst', hst1]
                  · rw [← hst', hst1]

/-- Inversion of `download_image` on a `Saved` outcome. -/
theorem download_image_saved_inv (env : FetchEnv) (st : FetcherState) (url : String)
    (p : String) (st' : FetcherState)
    (h : download_image env st url = .ok (.saved p, st')) :
    is_safe_url url = .ok true ∧
    try_download env st url = (st', .ok (.saved p)) := by
  unfold download_image at h
  cases hs : is_safe_url url with
  | error e => rw [hs] at h; cases h
  | ok b =>
    rw [hs] at h
    cases b with
    | false => simp at h
    | true =>
      dsimp only at h
      rcases ht : try_download env st url with ⟨st1, e⟩
      rw [ht] at h
      cases e with
      | ok o =>
        simp only [Except.ok.injEq, Prod.mk.injEq] at h
        obtain ⟨ho, hst⟩ := h
        subst ho hst
        exact ⟨rfl, rfl⟩
      | error exc =>
        cases exc with
        | requestException m => simp at h
        | otherException m => simp at h

/-- `get_filename_from_url` cannot raise when `is_safe_url` returned (the same
parse succeeded). -/
theorem get_filename_ok_of_safe (url : String) (b : Bool)
    (hs : is_safe_url url = .ok b) (ct : String) :
    ∃ fn, get_filename_from_url url ct = .ok fn := by
  unfold is_safe_url at hs
  unfold get_filename_from_url
  cases hp : pyUrlparse url with
  | error e => rw [hp] at hs; cases hs
  | ok parts => exact ⟨_, rfl⟩

/-! ## Claim C6: the theorem -/

/-- C6 (confirmed): starting from any candidate filepath, the collision loop (with
its provably sufficient fuel) returns a path; that path does not exist; it is the
candidate itself when that is free, and otherwise the first free
`{base}_{counter}{ext}` for counter = 1, 2, 3, …; and at the pipeline level a
`Saved` outcome writes a path that did not previously exist — no existing file is
ever overwritten. -/
theorem C6_collision_resolution :
    (∀ (files : List String) (base ext fp : String),
      ∃ p, resolveLoop files base ext (files.length + 2) fp 1 = some p ∧
        p ∉ files ∧
        (fp ∉ files → p = fp) ∧
        (fp ∈ files → ∃ k, 1 ≤ k ∧ p = collisionName base ext k ∧
          ∀ j, 1 ≤ j → j < k → collisionName base ext j ∈ files)) ∧
    (∀ (env : FetchEnv) (st : FetcherState) (url p : String) (st' : FetcherState),
      download_image env st url = .ok (.saved p, st') →
        p ∉ st.files ∧ st'.files = p :: st.files) := by
  refine ⟨resolveLoop_total, ?_⟩
  intro env st url p st' h
  obtain ⟨-, ht⟩ := download_image_saved_inv env st url p st' h
  obtain ⟨resp, content, filename, -, -, -, -, -, hres, -, -, hfiles⟩ :=
    try_download_saved_inv env st url st' p ht
  exact ⟨resolveLoop_result_not_mem st.files _ _ _ _ _ _ hres, hfiles⟩

/-- C6 witness: with `image.jpg` present the loop yields `image_1.jpg` (via the
theorem), and with both present it yields `image_2.jpg`. -/
theorem C6_witness :
    "Fetched_Images/image_1.jpg" ∉ ["Fetched_Images/image.jpg"] ∧
    resolveLoop ["Fetched_Images/image.jpg"] "Fetched_Images/image" ".jpg" 3
      "Fetched_Images/image.jpg" 1 = some "Fetched_Images/image_1.jpg" ∧
    resolveLoop ["Fetched_Images/image_1.jpg", "Fetched_Images/image.jpg"]
      "Fetched_Images/image" ".jpg" 4 "Fetched_Images/image.jpg" 1 =
      some "Fetched_Images/image_2.jpg" := by
  obtain ⟨p, h1, h2, -, -⟩ := C6_collision_resolution.1 ["Fetched_Images/image.jpg"]
    "Fetched_Images/image" ".jpg" "Fetched_Images/image.jpg"
  have hval : resolveLoop ["Fetched_Images/image.jpg"] "Fetched_Images/image" ".jpg"
      (["Fetched_Images/image.jpg"].length + 2) "Fetched_Images/image.jpg" 1 =
      some "Fetched_Images/image_1.jpg" := rfl
  have hp : p = "Fetched_Images/image_1.jpg" := Option.some.inj (h1.symm.trans hval)
  subst hp
  exact ⟨h2, h1, rfl⟩

/-! ## Claim C8: batch summary -/

/-- A saved filepath is never the empty string (so Python's truthiness test on the
returned filepath agrees with "the outcome was Saved"). -/
theorem saved_path_ne_empty (env : FetchEnv) (st : FetcherState) (url p : String)
    (st' : FetcherState) (h : download_image env st url = .ok (.saved p, st')) :
    p ≠ "" := by
  obtain ⟨-, ht⟩ := download_image_saved_inv env st url p st' h
  obtain ⟨resp, content, filename, -, -, -, -, -, hres, -, -, -⟩ :=
    try_download_saved_inv env st url st' p ht
  rcases resolveLoop_result_shape st.files _ _ _ _ _ _ hres with rfl | ⟨t, rfl⟩
  · exact os_path_join_ne_empty filename
  · exact collisionName_ne_empty _ _ t

/-- Each outcome of a completed batch run satisfies: truthiness of the returned
value coincides with being `Saved`. -/
theorem process_urls_truthy (env : FetchEnv) (urls : List String) :
    ∀ (st : FetcherState) (outcomes : List FetchOutcome) (st' : FetcherState),
      process_urls env st urls = .ok (outcomes, st') →
      (∀ o ∈ outcomes, pyTruthy o = isSaved o) ∧ outcomes.length = urls.length := by
  induction urls with
  | nil =>
    intro st outcomes st' h
    unfold process_urls at h
    simp only [Except.ok.injEq, Prod.mk.injEq] at h
    obtain ⟨ho, -⟩ := h
    subst ho
    exact ⟨fun o ho => absurd ho (List.not_mem_nil o), rfl⟩
  | cons u us ih =>
    intro st outcomes st' h
    unfold process_urls at h
    cases hd : download_image env st u with
    | error e => rw [hd] at h; cases h
    | ok r =>
      rcases r with ⟨o, st1⟩
      rw [hd] at h
      dsimp only at h
      cases hp : process_urls env st1 us with
      | error e => rw [hp] at h; cases h
      | ok r2 =>
        rcases r2 with ⟨os, st2⟩
        rw [hp] at h
        simp only [Except.ok.injEq, Prod.mk.injEq] at h
        obtain ⟨ho, -⟩ := h
        subst ho
        obtain ⟨htr, hlen⟩ := ih st1 os st2 hp
        refine ⟨?_, by simp [hlen]⟩
        intro o' ho'
        rcases List.mem_cons.mp ho' with rfl | hmem
        · cases o' with
          | saved p =>
            have hne := saved_path_ne_empty env st u p st1 hd
            simp [pyTruthy, isSaved, hne]
          | unsafeUrl => rfl
          | invalidResponse => rfl
          | tooLarge => rfl
          | duplicate => rfl
          | connectionError m => rfl
          | otherError m => rfl
        · exact htr o' hmem

/-- C8 (confirmed): when the batch loop completes, the reported summary is exactly
(number of `Saved` outcomes, total number of URLs attempted). -/
theorem C8_batch_summary (env : FetchEnv) (st : FetcherState) (urls : List String)
    (outcomes : List FetchOutcome) (st' : FetcherState)
    (h : process_urls env st urls = .ok (outcomes, st')) :
    main_summary env st urls =
      .ok ((outcomes.filter (fun o => isSaved o)).length, urls.length) ∧
    success_count outcomes = (outcomes.filter (fun o => isSaved o)).length ∧
    outcomes.length = urls.length := by
  obtain ⟨htr, hlen⟩ := process_urls_truthy env urls st outcomes st' h
  have hcount : success_count outcomes = (outcomes.filter (fun o => isSaved o)).length := by
    unfold success_count
    rw [List.countP_congr (fun o ho => by rw [htr o ho])]
    exact List.countP_eq_length_filter _ _
  refine ⟨?_, hcount, hlen⟩
  unfold main_summary
  rw [h]
  dsimp only
  rw [hcount]

/-- C8 witness: a concrete two-URL batch (one saved, one unsafe) reports 1 of 2. -/
theorem C8_witness :
    main_summary emptyClEnv ⟨[], []⟩
      ["http://example.com/pic.png", "ftp://other.example/b.jpg"] = .ok (1, 2) :=
  (C8_batch_summary emptyClEnv ⟨[], []⟩
    ["http://example.com/pic.png", "ftp://other.example/b.jpg"]
    [.saved "Fetched_Images/pic.png", .unsafeUrl]
    ⟨[md5Hexdigest [1, 2, 3]], ["Fetched_Images/pic.png"]⟩ rfl).1

/-! ## Claim C9: hash recorded before the write -/

/-- The `try:` body when the body's hash is already recorded: `Duplicate`, state
unchanged. -/
theorem try_download_duplicate (env : FetchEnv) (st : FetcherState) (url : String)
    (resp : PyResponse) (content : List Nat)
    (hf : env.fetch url = .ok resp)
    (hv : validate_response resp = .ok true)
    (hacc : accumulateChunks resp.chunks max_file_size = some content)
    (hmem : md5Hexdigest content ∈ st.downloaded_hashes) :
    try_download env st url = (st, .ok .duplicate) := by
  unfold try_download
  rw [hf]
  dsimp only
  rw [hv]
  dsimp only
  rw [hacc]
  dsimp only
  have hdup : is_duplicate_image st content = (true, st) := by
    unfold is_duplicate_image
    rw [if_pos hmem]
  rw [hdup]

/-- The `try:` body when the body is new but every write raises `OSError`: the hash
is recorded first (line 118 precedes line 134), then the write fails; the exception
carries the already-mutated registry, and no file is created. -/
theorem try_download_write_fails (env : FetchEnv) (st : FetcherState) (url : String)
    (resp : PyResponse) (content : List Nat)
    (hf : env.fetch url = .ok resp)
    (hs : is_safe_url url = .ok true)
    (hv : validate_response resp = .ok true)
    (hacc : accumulateChunks resp.chunks max_file_size = some content)
    (hnew : md5Hexdigest content ∉ st.downloaded_hashes)
    (hw : ∀ q, env.writeFails q = true) :
    try_download env st url =
      (⟨md5Hexdigest content :: st.downloaded_hashes, st.files⟩,
       .error (.otherException "OSError")) := by
  unfold try_download
  rw [hf]
  dsimp only
  rw [hv]
  dsimp only
  rw [hacc]
  dsimp only
  have hdup : is_duplicate_image st content =
      (false, ⟨md5Hexdigest content :: st.downloaded_hashes, st.files⟩) := by
    unfold is_duplicate_image
    rw [if_neg hnew]
  rw [hdup]
  dsimp only
  obtain ⟨fn, hfn⟩ := get_filename_ok_of_safe url true hs
    (strLower ((headerGet resp.headers "Content-Type").getD ""))
  rw [hfn]
  dsimp only
  obtain ⟨p, hres, -, -, -⟩ := resolveLoop_total st.files
    (os_path_splitext (os_path_join "Fetched_Images" fn)).1
    (os_path_splitext (os_path_join "Fetched_Images" fn)).2
    (os_path_join "Fetched_Images" fn)
  rw [hres]
  dsimp only
  rw [if_pos (hw p)]

/-- C9 (confirmed): the content hash is recorded by the duplicate check before the
write is attempted, so when the write raises, the URL's outcome is the unclassified
failure with no file saved while the hash stays in the registry — and any later
byte-identical body yields `Duplicate` even though nothing was persisted. -/
theorem C9_dedup_not_rolled_back (env : FetchEnv) (st : FetcherState) (url : String)
    (resp : PyResponse) (content : List Nat)
    (hf : env.fetch url = .ok resp)
    (hs : is_safe_url url = .ok true)
    (hv : validate_response resp = .ok true)
    (hacc : accumulateChunks resp.chunks max_file_size = some content)
    (hnew : md5Hexdigest content ∉ st.downloaded_hashes)
    (hw : ∀ q, env.writeFails q = true) :
    download_image env st url =
      .ok (.otherError "OSError",
        ⟨md5Hexdigest content :: st.downloaded_hashes, st.files⟩) ∧
    (∀ (env2 : FetchEnv) (url2 : String) (resp2 : PyResponse),
      env2.fetch url2 = .ok resp2 →
      is_safe_url url2 = .ok true →
      validate_response resp2 = .ok true →
      accumulateChunks resp2.chunks max_file_size = some content →
      download_image env2 ⟨md5Hexdigest content :: st.downloaded_hashes, st.files⟩ url2 =
        .ok (.duplicate, ⟨md5Hexdigest content :: st.downloaded_hashes, st.files⟩)) := by
  constructor
  · exact download_image_of_try_exc env st url hs
      (try_download_write_fails env st url resp content hf hs hv hacc hnew hw)
  · intro env2 url2 resp2 hf2 hs2 hv2 hacc2
    exact download_image_of_try_ok env2 _ url2 hs2
      (try_download_duplicate env2 _ url2 resp2 content hf2 hv2 hacc2 (List.mem_cons_self _ _))

/-- A transport with one small image response and a filesystem that rejects every
write. -/
def failWriteEnv : FetchEnv :=
  ⟨fun _ => .ok ⟨200, [("Content-Type", "image/png")], [[9]]⟩, fun _ => true⟩

/-- C9 witness: a failed write leaves the hash recorded; the next identical body is
reported `Duplicate`. -/
theorem C9_witness :
    download_image failWriteEnv ⟨[], []⟩ "http://example.com/a.png" =
      .ok (.otherError "OSError", ⟨[md5Hexdigest [9]], []⟩) ∧
    download_image failWriteEnv ⟨[md5Hexdigest [9]], []⟩ "http://example.com/b.png" =
      .ok (.duplicate, ⟨[md5Hexdigest [9]], []⟩) := by
  have h := C9_dedup_not_rolled_back failWriteEnv ⟨[], []⟩ "http://example.com/a.png"
    ⟨200, [("Content-Type", "image/png")], [[9]]⟩ [9]
    rfl rfl rfl rfl (List.not_mem_nil _) (fun q => rfl)
  exact ⟨h.1, h.2 failWriteEnv "http://example.com/b.png"
    ⟨200, [("Content-Type", "image/png")], [[9]]⟩ rfl rfl rfl rfl⟩

/-! ## Claim C5: dedup idempotence and the hash-collision caveat -/

/-- `toLEBytes` always produces exactly `k` bytes. -/
theorem toLEBytes_length (k : Nat) : ∀ n, (toLEBytes k n).length = k := by
  induction k with
  | zero => intro n; rfl
  | succ k ih =>
    intro n
    unfold toLEBytes
    simp [ih]

/-- `toLEBytes` bytes are below 256. -/
theorem toLEBytes_lt (k : Nat) : ∀ n, ∀ x ∈ toLEBytes k n, x < 256 := by
  induction k with
  | zero => intro n x hx; cases hx
  | succ k ih =>
    intro n x hx
    unfold toLEBytes at hx
    rcases List.mem_cons.mp hx with rfl | hmem
    · exact Nat.mod_lt _ (by norm_num)
    · exact ih (n / 256) x hmem

/-- The MD5 digest is 16 bytes long. -/
theorem md5Digest_length (msg : List Nat) : (md5Digest msg).length = 16 := by
  unfold md5Digest
  simp [toLEBytes_length]

/-- Every MD5 digest byte is below 256. -/
theorem md5Digest_lt (msg : List Nat) : ∀ x ∈ md5Digest msg, x < 256 := by
  unfold md5Digest
  intro x hx
  simp only [List.mem_append] at hx
  rcases hx with ((h | h) | h) | h <;> exact toLEBytes_lt 4 _ x h

/-- A 17-byte message as a list of bytes. -/
def byteEncode (f : Fin 17 → Fin 256) : List Nat := List.ofFn (fun i => (f i : Nat))

/-- Distinct 17-byte messages encode to distinct lists. -/
theorem byteEncode_inj : Function.Injective byteEncode := by
  intro f g h
  unfold byteEncode at h
  have := List.ofFn_inj.mp h
  funext i
  exact Fin.ext (congrFun this i)

/-- The MD5 digest of a message, packaged as a function into bytes. -/
def digestFn (msg : List Nat) : Fin 16 → Fin 256 := fun i =>
  ⟨(md5Digest msg).get ⟨i.val, by rw [md5Digest_length]; exact i.isLt⟩,
   md5Digest_lt msg _ (by apply List.get_mem)⟩

/-- Pigeonhole over the 128-bit digest space: there exist two distinct 17-byte
messages with the same MD5 hex digest.  (There are `256 ^ 17` such messages and at
most `256 ^ 16` digests.) -/
theorem md5_exists_collision :
    ∃ b1 b2 : List Nat, b1 ≠ b2 ∧
      (∀ x ∈ b1, x < 256) ∧ (∀ x ∈ b2, x < 256) ∧
      md5Hexdigest b1 = md5Hexdigest b2 := by
  have hcard : Fintype.card (Fin 16 → Fin 256) < Fintype.card (Fin 17 → Fin 256) := by
    rw [Fintype.card_fun, Fintype.card_fun, Fintype.card_fin, Fintype.card_fin,
      Fintype.card_fin]
    exact Nat.pow_lt_pow_right (by norm_num) (by norm_num)
  obtain ⟨f, g, hfg, heq⟩ :=
    Fintype.exists_ne_map_eq_of_card_lt (fun f => digestFn (byteEncode f)) hcard
  refine ⟨byteEncode f, byteEncode g, fun h => hfg (byteEncode_inj h), ?_, ?_, ?_⟩
  · intro x hx
    obtain ⟨i, hi⟩ := (List.mem_ofFn _ _).mp hx
    rw [← hi]
    exact (f i).isLt
  · intro x hx
    obtain ⟨i, hi⟩ := (List.mem_ofFn _ _).mp hx
    rw [← hi]
    exact (g i).isLt
  · have hdig : md5Digest (byteEncode f) = md5Digest (byteEncode g) := by
      apply List.ext_get
      · rw [md5Digest_length, md5Digest_length]
      · intro n h1 h2
        have hn : n < 16 := by rwa [md5Digest_length] at h1
        have := congrFun heq ⟨n, hn⟩
        exact congrArg Fin.val this
    unfold md5Hexdigest
    rw [hdig]

/-- C5 counterexample: the claim "two bodies differing in even one byte are both
treated as new independently" fails in principle — by pigeonhole two distinct byte
sequences share an MD5 digest, and after the first is recorded the second is
reported as a duplicate. -/
theorem C5_counterexample :
    ¬ (∀ b1 b2 : List Nat, (∀ x ∈ b1, x < 256) → (∀ x ∈ b2, x < 256) → b1 ≠ b2 →
        (is_duplicate_image ((is_duplicate_image ⟨[], []⟩ b1).2) b2).1 = false) := by
  intro hall
  obtain ⟨b1, b2, hne, hlt1, hlt2, hhex⟩ := md5_exists_collision
  have hthis := hall b1 b2 hlt1 hlt2 hne
  have h1 : (is_duplicate_image ⟨[], []⟩ b1).2 =
      ⟨[md5Hexdigest b1], ([] : List String)⟩ := by
    unfold is_duplicate_image
    rw [if_neg (List.not_mem_nil _)]
  rw [h1] at hthis
  unfold is_duplicate_image at hthis
  rw [if_pos (by rw [← hhex]; exact List.mem_singleton_self _)] at hthis
  exact nomatch hthis

/-- C5 (corrected): `is_duplicate_image` reports "new" iff the hash was not
previously recorded, and records it atomically with the check; at the pipeline
level a second URL whose response body is byte-identical to a first saved one
yields `Duplicate`; and two bodies whose MD5 digests differ are treated as new
independently.  (As stated the claim fails: for MD5-colliding distinct bodies the
second is reported a duplicate — see the counterexample.) -/
theorem C5_dedup_idempotence (st : FetcherState) (content : List Nat) :
    ((is_duplicate_image st content).1 = false ↔
      md5Hexdigest content ∉ st.downloaded_hashes) ∧
    ((is_duplicate_image st content).1 = false →
      (is_duplicate_image st content).2 =
        ⟨md5Hexdigest content :: st.downloaded_hashes, st.files⟩) ∧
    ((is_duplicate_image st content).1 = true →
      (is_duplicate_image st content).2 = st) ∧
    (∀ (env env2 : FetchEnv) (st' : FetcherState) (url p url2 : String)
       (resp resp2 : PyResponse),
      download_image env st url = .ok (.saved p, st') →
      env.fetch url = .ok resp →
      env2.fetch url2 = .ok resp2 →
      is_safe_url url2 = .ok true →
      validate_response resp2 = .ok true →
      accumulateChunks resp2.chunks max_file_size = accumulateChunks resp.chunks max_file_size →
      download_image env2 st' url2 = .ok (.duplicate, st')) ∧
    (∀ b2, md5Hexdigest b2 ≠ md5Hexdigest content →
      md5Hexdigest b2 ∉ st.downloaded_hashes →
      (is_duplicate_image ((is_duplicate_image st content).2) b2).1 = false) := by
  rcases hdup : is_duplicate_image st content with ⟨b, st1⟩
  have hinv := is_duplicate_image_inv st content b st1 hdup
  refine ⟨?_, ?_, ?_, ?_, ?_⟩
  · constructor
    · intro hb
      dsimp only
      cases b with
      | false => exact (hinv.2 rfl).1
      | true => exact absurd hb (by simp)
    · intro hmem
      cases b with
      | false => rfl
      | true => exact absurd (hinv.1 rfl).1 hmem
  · intro hb
    dsimp only at hb ⊢
    subst hb
    exact (hinv.2 rfl).2
  · intro hb
    dsimp only at hb ⊢
    subst hb
    exact (hinv.1 rfl).2
  · intro env env2 st' url p url2 resp resp2 hsav hf hf2 hs2 hv2 hsame
    obtain ⟨-, ht⟩ := download_image_saved_inv env st url p st' hsav
    obtain ⟨resp', content', filename, hf', hv', hacc', hnew', -, -, -, hh', -⟩ :=
      try_download_saved_inv env st url st' p ht
    have hresp : resp' = resp := by
      have := hf'.symm.trans hf
      exact Except.ok.inj this
    subst hresp
    have hacc2 : accumulateChunks resp2.chunks max_file_size = some content' := by
      rw [hsame, hacc']
    have hmem2 : md5Hexdigest content' ∈ st'.downloaded_hashes := by
      rw [hh']
      exact List.mem_cons_self _ _
    exact download_image_of_try_ok env2 st' url2 hs2
      (try_download_duplicate env2 st' url2 resp2 content' hf2 hv2 hacc2 hmem2)
  · intro b2 hne hnotin
    dsimp only
    cases b with
    | true =>
      rw [(hinv.1 rfl).2]
      unfold is_duplicate_image
      rw [if_neg hnotin]
    | false =>
      rw [(hinv.2 rfl).2]
      unfold is_duplicate_image
      rw [if_neg (by
        intro hmem
        rcases List.mem_cons.mp hmem with heq | htl
        · exact hne heq
        · exact hnotin htl)]

/-- C5 witness: with the one-response transport, a first URL is saved and a second
URL with the byte-identical body is reported `Duplicate`. -/
theorem C5_witness :
    download_image emptyClEnv
      ⟨[md5Hexdigest [1, 2, 3]], ["Fetched_Images/pic.png"]⟩
      "http://example.com/pic2.png" =
      .ok (.duplicate, ⟨[md5Hexdigest [1, 2, 3]], ["Fetched_Images/pic.png"]⟩) :=
  (C5_dedup_idempotence ⟨[], []⟩ [1, 2, 3]).2.2.2.1
    emptyClEnv emptyClEnv
    ⟨[md5Hexdigest [1, 2, 3]], ["Fetched_Images/pic.png"]⟩
    "http://example.com/pic.png" "Fetched_Images/pic.png" "http://example.com/pic2.png"
    ⟨200, [("Content-Type", "image/png"), ("Content-Length", "")], [[1, 2, 3]]⟩
    ⟨200, [("Content-Type", "image/png"), ("Content-Length", "")], [[1, 2, 3]]⟩
    rfl rfl rfl rfl rfl rfl

/-! ## Claim C7: filename derivation and extension mapping -/

/-- `str.find` on a cons cell. -/
theorem findIdx_cons (c a : Char) (l : List Char) :
    findIdx c (a :: l) = if a = c then some 0 else (findIdx c l).map (· + 1) := by
  unfold findIdx
  by_cases h : a = c
  · simp [h]
  · simp [h, List.findIdx?_succ]

/-- `str.rfind` after appending one character: a match at the end wins, otherwise
the search result on the prefix is unchanged. -/
theorem rfindIdx_concat (c a : Char) (xs : List Char) :
    rfindIdx c (xs ++ [a]) = if a = c then some xs.length else rfindIdx c xs := by
  unfold rfindIdx
  rw [show (xs ++ [a]).reverse = a :: xs.reverse by simp]
  rw [findIdx_cons]
  by_cases h : a = c
  · simp [h, List.length_append]
  · rw [if_neg h, if_neg h]
    cases hfi : findIdx c xs.reverse with
    | none => simp
    | some j =>
      have hlen2 : (xs ++ [a]).length = xs.length + 1 := by simp
      rw [hlen2, show Option.map (fun x => x + 1) (some j) = some (j + 1) from rfl]
      dsimp only
      simp only [Option.some.injEq]
      omega

/-- A successful `rfind` index is within the list. -/
theorem rfindIdx_lt_length (c : Char) (l : List Char) (i : Nat)
    (h : rfindIdx c l = some i) : i < l.length := by
  unfold rfindIdx at h
  cases hfi : findIdx c l.reverse with
  | none => rw [hfi] at h; cases h
  | some j =>
    rw [hfi] at h
    have hj : j < l.reverse.length := by
      unfold findIdx at hfi
      obtain ⟨hlt, -⟩ := List.findIdx?_eq_some_iff_getElem.mp hfi
      exact hlt
    rw [List.length_reverse] at hj
    injection h with h'
    omega

/-- The slice after the last slash equals the reversed maximal slash-free suffix:
the list-level content of `os.path.basename`. -/
theorem drop_after_rfind (l : List Char) :
    (match rfindIdx '/' l with
     | none => l
     | some i => l.drop (i + 1)) =
      (l.reverse.takeWhile (fun c => c ≠ '/')).reverse := by
  induction l using List.reverseRecOn with
  | nil => rfl
  | append_singleton xs a ih =>
    rw [rfindIdx_concat]
    by_cases h : a = '/'
    · rw [if_pos h]
      dsimp only
      rw [show xs.length + 1 = (xs ++ [a]).length by simp, List.drop_length]
      rw [show (xs ++ [a]).reverse = a :: xs.reverse by simp]
      rw [List.takeWhile_cons_of_neg (by simp [h])]
      rfl
    · rw [if_neg h]
      rw [show (xs ++ [a]).reverse = a :: xs.reverse by simp]
      rw [List.takeWhile_cons_of_pos (by simp [h])]
      cases hfi : rfindIdx '/' xs with
      | none =>
        rw [hfi] at ih
        dsimp only at ih ⊢
        rw [List.reverse_cons, ← ih]
      | some i =>
        rw [hfi] at ih
        dsimp only at ih ⊢
        have hle : i + 1 ≤ xs.length := rfindIdx_lt_length '/' xs i hfi
        rw [List.drop_append_of_le_length hle, List.reverse_cons, ← ih]

/-- C7 (confirmed): the base name is the last path segment of the URL (the maximal
slash-free suffix); an empty segment synthesizes `ubuntu_image<ext>`, a segment
without an extension gets the mapped extension appended, a segment with an
extension is kept unchanged; and the content-type table maps exactly the eight
listed MIME types, with everything else falling back to `.jpg`. -/
theorem C7_filename_derivation :
    (∀ p : String, os_path_basename p =
      String.mk ((p.data.reverse.takeWhile (fun c => c ≠ '/')).reverse)) ∧
    (∀ (url : String) (parts : UrlParts) (ct : String),
      pyUrlparse url = .ok parts →
      (os_path_basename (String.mk parts.path) = "" →
        get_filename_from_url url ct =
          .ok ("ubuntu_image" ++ get_extension_from_content_type ct)) ∧
      (os_path_basename (String.mk parts.path) ≠ "" →
        (os_path_splitext (os_path_basename (String.mk parts.path))).2 = "" →
        get_filename_from_url url ct =
          .ok (os_path_basename (String.mk parts.path) ++
               get_extension_from_content_type ct)) ∧
      ((os_path_splitext (os_path_basename (String.mk parts.path))).2 ≠ "" →
        get_filename_from_url url ct = .ok (os_path_basename (String.mk parts.path)))) ∧
    (get_extension_from_content_type "image/jpeg" = ".jpg" ∧
     get_extension_from_content_type "image/jpg" = ".jpg" ∧
     get_extension_from_content_type "image/png" = ".png" ∧
     get_extension_from_content_type "image/gif" = ".gif" ∧
     get_extension_from_content_type "image/webp" = ".webp" ∧
     get_extension_from_content_type "image/svg+xml" = ".svg" ∧
     get_extension_from_content_type "image/bmp" = ".bmp" ∧
     get_extension_from_content_type "image/tiff" = ".tiff") ∧
    (∀ ct : String, ct ∉ (["image/jpeg", "image/jpg", "image/png", "image/gif",
        "image/webp", "image/svg+xml", "image/bmp", "image/tiff"] : List String) →
      get_extension_from_content_type ct = ".jpg") := by
  refine ⟨?_, ?_, ⟨rfl, rfl, rfl, rfl, rfl, rfl, rfl, rfl⟩, ?_⟩
  · intro p
    unfold os_path_basename
    have hmain := drop_after_rfind p.data
    cases hfi : rfindIdx '/' p.data with
    | none =>
      rw [hfi] at hmain
      dsimp only at hmain ⊢
      exact congrArg String.mk hmain
    | some i =>
      rw [hfi] at hmain
      dsimp only at hmain ⊢
      exact congrArg String.mk hmain
  · intro url parts ct hp
    unfold get_filename_from_url
    rw [hp]
    dsimp only
    refine ⟨?_, ?_, ?_⟩
    · intro hemp
      rw [if_pos hemp]
    · intro hne hext
      rw [if_neg hne, if_pos hext]
    · intro hext
      have hne : os_path_basename (String.mk parts.path) ≠ "" := by
        intro hemp
        rw [hemp] at hext
        exact hext rfl
      rw [if_neg hne, if_neg hext]
  · intro ct hmem
    simp only [List.mem_cons, List.not_mem_nil, or_false, not_or] at hmem
    obtain ⟨h1, h2, h3, h4, h5, h6, h7, h8⟩ := hmem
    unfold get_extension_from_content_type
    rw [if_neg h1, if_neg h2, if_neg h3, if_neg h4, if_neg h5, if_neg h6, if_neg h7,
      if_neg h8]

/-- C7 witness: a URL path without an extension plus an unmapped content type
yields the base name with the `.jpg` fallback appended. -/
theorem C7_witness :
    get_filename_from_url "http://example.com/pic" "image/x-custom" = .ok "pic.jpg" ∧
    get_extension_from_content_type "image/x-custom" = ".jpg" :=
  ⟨((C7_filename_derivation.2.1 "http://example.com/pic"
      ⟨"http".data, "example.com".data, "/pic".data⟩ "image/x-custom" rfl).2.1
      (by decide) rfl),
   C7_filename_derivation.2.2.2 "image/x-custom" (by decide)⟩
